import Mathlib

/-!
Verification of the UNO bot (`src/bot.py`).

The development shallowly embeds the card data model, the move evaluator
`UNOGame.melhores_jogadas`, the recognizer reconciliation
`UNOCardDetector.detect_card`, the color classifier decision rule
`UNOCardDetector.detect_color`, the symbol classifier text reconciliation
`UNOCardDetector.detect_card_type`, the manual parser
`UNOGame.parse_manual_input`, and the hand removal operation
`UNOGame.remove_card_from_hand`.

Image processing (OpenCV masking, OCR) is external: the recognizer functions
are embedded as functions of the classifier outputs, exactly mirroring the
Python reconciliation code, and the classifier decision rules are embedded as
functions of the per-color pixel scores and of the recognized text.
-/

/-- The four chromatic card colors (`'red'`, `'blue'`, `'green'`, `'yellow'`
strings in `bot.py`). -/
inductive Color
  | red
  | blue
  | green
  | yellow
deriving DecidableEq, Repr

/-- Action card kinds (`'skip'`, `'reverse'`, `'draw_two'`). -/
inductive ActionKind
  | skip
  | reverse
  | draw_two
deriving DecidableEq, Repr

/-- Wild card kinds (`'wild'`, `'wild_draw_four'`). -/
inductive WildKind
  | wild
  | wild_draw_four
deriving DecidableEq, Repr

/-- A card, as the dicts `{'type': 'number'|'action'|'wild', ...}` built in
`bot.py` (`detect_card`, `parse_manual_input`). -/
inductive Card
  | number (color : Color) (value : Nat)
  | action (color : Color) (action : ActionKind)
  | wild (action : WildKind)
deriving DecidableEq, Repr

/-- `card.get('color')`: number and action cards carry a color, wild cards do
not (Python returns `None`). -/
def cardColor : Card → Option Color
  | .number c _ => some c
  | .action c _ => some c
  | .wild _ => none

/-- The eligibility test inside the loop of `UNOGame.melhores_jogadas`
(`bot.py` lines 134-143): a wild is always playable; otherwise a card whose
color equals the reference's color is playable; otherwise a card of the same
type as the reference is playable when the value (number) or action (action)
coincides. -/
def playable (top : Card) (c : Card) : Bool :=
  match c with
  | .wild _ => true
  | .number col v =>
    if some col = cardColor top then true
    else
      match top with
      | .number _ tv => v == tv
      | _ => false
  | .action col a =>
    if some col = cardColor top then true
    else
      match top with
      | .action _ ta => a == ta
      | _ => false

/-- The list `jogaveis` built by the loop: the playable cards of the hand, in
hand order. -/
def jogaveis (hand : List Card) (top : Card) : List Card :=
  hand.filter (playable top)

/-- The sort key `0 if c['type'] == 'number' else (1 if c['type'] == 'action'
else 2)` from `bot.py` line 145. -/
def catRank : Card → Nat
  | .number _ _ => 0
  | .action _ _ => 1
  | .wild _ => 2

/-- Stable insertion into a rank-sorted list: the new card goes in front of
the first card of greater-or-equal rank. -/
def insertByRank (c : Card) : List Card → List Card
  | [] => [c]
  | d :: ds => if catRank c ≤ catRank d then c :: d :: ds else d :: insertByRank c ds

/-- Python's `list.sort` is a stable sort; since the key here is only the
category rank, we embed it as a stable insertion sort on `catRank`. -/
def sortByRank : List Card → List Card
  | [] => []
  | c :: cs => insertByRank c (sortByRank cs)

/-- `UNOGame.melhores_jogadas` (`bot.py` lines 128-145), as the sequence of
suggested cards it prints: with no top card it suggests nothing; otherwise it
filters the hand by `playable` and stable-sorts by category rank. -/
def melhores_jogadas (hand : List Card) (top : Option Card) : List Card :=
  match top with
  | none => []
  | some t => sortByRank (jogaveis hand t)

/-- Whether a card is a wild card. -/
def isWildCard : Card → Bool
  | .wild _ => true
  | _ => false

/-- Whether a card is a number card. -/
def isNumberCard : Card → Bool
  | .number _ _ => true
  | _ => false

/-- Whether a card is an action card. -/
def isActionCard : Card → Bool
  | .action _ _ => true
  | _ => false

lemma insertByRank_front (c : Card) (l : List Card)
    (h : ∀ d ∈ l, catRank c ≤ catRank d) : insertByRank c l = c :: l := by
  cases l with
  | nil => rfl
  | cons d ds =>
    simp only [insertByRank]
    rw [if_pos (h d (by simp))]

lemma insertByRank_skip (c : Card) (l1 l2 : List Card)
    (h : ∀ d ∈ l1, catRank d < catRank c) :
    insertByRank c (l1 ++ l2) = l1 ++ insertByRank c l2 := by
  induction l1 with
  | nil => rfl
  | cons d ds ih =>
    simp only [List.cons_append, insertByRank]
    rw [if_neg (by simpa using Nat.not_le_of_lt (h d (by simp)))]
    exact congrArg (List.cons d) (ih (fun e he => h e (by simp [he])))

lemma catRank_number (col : Color) (v : Nat) : catRank (Card.number col v) = 0 := rfl

lemma catRank_action (col : Color) (a : ActionKind) : catRank (Card.action col a) = 1 := rfl

lemma catRank_wild (w : WildKind) : catRank (Card.wild w) = 2 := rfl

lemma mem_filter_rank (l : List Card) (k : Nat) (d : Card)
    (hd : d ∈ l.filter (fun c => catRank c == k)) : catRank d = k := by
  rw [List.mem_filter] at hd
  simpa using hd.2

/-- A stable sort on the category key splits into the three category filters
in key order. -/
lemma sortByRank_eq_filters (l : List Card) :
    sortByRank l =
      l.filter (fun c => catRank c == 0) ++ l.filter (fun c => catRank c == 1)
        ++ l.filter (fun c => catRank c == 2) := by
  induction l with
  | nil => rfl
  | cons c cs ih =>
    have step : sortByRank (c :: cs) = insertByRank c (sortByRank cs) := rfl
    rw [step, ih]
    cases c with
    | number col v =>
      rw [insertByRank_front _ _ (fun d _ => Nat.zero_le _)]
      simp [List.filter_cons, catRank]
    | action col a =>
      rw [List.append_assoc, insertByRank_skip _ _ _ (by
        intro d hd
        have h0 := mem_filter_rank cs 0 d hd
        rw [catRank_action]
        omega)]
      rw [insertByRank_front _ _ (by
        intro d hd
        rw [catRank_action]
        rcases List.mem_append.mp hd with h1 | h2
        · have := mem_filter_rank cs 1 d h1
          omega
        · have := mem_filter_rank cs 2 d h2
          omega)]
      simp [List.filter_cons, catRank]
    | wild w =>
      rw [insertByRank_skip _ _ _ (by
        intro d hd
        rw [catRank_wild]
        rcases List.mem_append.mp hd with h1 | h2
        · have := mem_filter_rank cs 0 d h1
          omega
        · have := mem_filter_rank cs 1 d h2
          omega)]
      rw [insertByRank_front _ _ (by
        intro d hd
        rw [catRank_wild]
        have := mem_filter_rank cs 2 d hd
        omega)]
      simp [List.filter_cons, catRank]

lemma catRank_eq_zero_iff (c : Card) : (catRank c == 0) = isNumberCard c := by
  cases c <;> rfl

lemma catRank_eq_one_iff (c : Card) : (catRank c == 1) = isActionCard c := by
  cases c <;> rfl

lemma catRank_eq_two_iff (c : Card) : (catRank c == 2) = isWildCard c := by
  cases c <;> rfl

lemma filterNum_eq (hand : List Card) (top : Card) :
    hand.filter (fun a => (catRank a == 0) && playable top a)
      = hand.filter (fun c => playable top c && isNumberCard c) :=
  List.filter_congr (fun c _ => by cases c <;> simp [catRank, isNumberCard])

lemma filterAct_eq (hand : List Card) (top : Card) :
    hand.filter (fun a => (catRank a == 1) && playable top a)
      = hand.filter (fun c => playable top c && isActionCard c) :=
  List.filter_congr (fun c _ => by cases c <;> simp [catRank, isActionCard])

lemma filterWild_eq (hand : List Card) (top : Card) :
    hand.filter (fun a => (catRank a == 2) && playable top a)
      = hand.filter (fun c => playable top c && isWildCard c) :=
  List.filter_congr (fun c _ => by cases c <;> simp [catRank, isWildCard])

lemma melhores_eq_filters (hand : List Card) (top : Card) :
    melhores_jogadas hand (some top) =
      hand.filter (fun c => playable top c && isNumberCard c)
        ++ hand.filter (fun c => playable top c && isActionCard c)
        ++ hand.filter (fun c => playable top c && isWildCard c) := by
  simp only [melhores_jogadas, jogaveis, sortByRank_eq_filters, List.filter_filter]
  rw [filterNum_eq, filterAct_eq, filterWild_eq]

lemma pairwise_rank_of_forall (l : List Card) (k : Nat) (h : ∀ a ∈ l, catRank a = k) :
    l.Pairwise (fun a b => catRank a ≤ catRank b) := by
  induction l with
  | nil => exact List.Pairwise.nil
  | cons a as ih =>
    refine List.Pairwise.cons ?_ (ih (fun b hb => h b (by simp [hb])))
    intro b hb
    rw [h a (by simp), h b (by simp [hb])]

/-- C1: against a wild reference card, the move evaluator returns exactly the
wild cards of the hand in their hand order; colored number and action cards
never appear. -/
theorem wild_reference_exactly_wilds (hand : List Card) (w : WildKind) :
    melhores_jogadas hand (some (Card.wild w)) = hand.filter isWildCard := by
  rw [melhores_eq_filters]
  have hA : hand.filter (fun c => playable (Card.wild w) c && isNumberCard c) = [] := by
    rw [List.filter_eq_nil_iff]
    intro a _
    cases a <;> simp [playable, cardColor, isNumberCard]
  have hB : hand.filter (fun c => playable (Card.wild w) c && isActionCard c) = [] := by
    rw [List.filter_eq_nil_iff]
    intro a _
    cases a <;> simp [playable, cardColor, isActionCard]
  have hC : hand.filter (fun c => playable (Card.wild w) c && isWildCard c)
      = hand.filter isWildCard :=
    List.filter_congr (fun c _ => by cases c <;> simp [playable, cardColor, isWildCard])
  rw [hA, hB, hC]
  simp

/-- C2 counterexample: on the spec's example hand against reference Red-5, the
code's output is not the spec's claimed sequence (Blue-Skip is not playable
against Red-5: the colors differ and the variants differ). -/
theorem example_hand_not_spec_sequence :
    melhores_jogadas
      [Card.wild .wild, Card.number .red 5, Card.action .blue .skip, Card.number .red 5]
      (some (Card.number .red 5)) ≠
    [Card.number .red 5, Card.number .red 5, Card.action .blue .skip, Card.wild .wild] := by
  decide

/-- C2 amended: on hand [Wild, Red-5, Blue-Skip, Red-5] with reference Red-5
the move evaluator outputs exactly [Red-5, Red-5, Wild]; Blue-Skip is
excluded because it matches neither the reference color nor the variant. -/
theorem example_hand_output :
    melhores_jogadas
      [Card.wild .wild, Card.number .red 5, Card.action .blue .skip, Card.number .red 5]
      (some (Card.number .red 5)) =
    [Card.number .red 5, Card.number .red 5, Card.wild .wild] := by
  decide

/-- C3: a number card is playable against a different-colored number card of
the same rank, and an action card is playable against a different-colored
action card with the same action (rule 3, cross-color same-rank). -/
theorem cross_color_same_rank_playable (c1 c2 : Color) (r : Nat) (a : ActionKind)
    (hne : c1 ≠ c2) (_hr : r ≤ 9) :
    melhores_jogadas [Card.number c1 r] (some (Card.number c2 r)) = [Card.number c1 r]
    ∧ melhores_jogadas [Card.action c1 a] (some (Card.action c2 a)) = [Card.action c1 a] := by
  constructor
  · simp [melhores_jogadas, jogaveis, playable, cardColor, hne, sortByRank, insertByRank,
      List.filter]
  · simp [melhores_jogadas, jogaveis, playable, cardColor, hne, sortByRank, insertByRank,
      List.filter]

theorem cross_color_same_rank_playable_witness :
    melhores_jogadas [Card.number .red 5] (some (Card.number .blue 5)) = [Card.number .red 5]
    ∧ melhores_jogadas [Card.action .red .skip] (some (Card.action .blue .skip))
        = [Card.action .red .skip] :=
  cross_color_same_rank_playable .red .blue 5 .skip (by decide) (by decide)

/-- C4: for every hand and reference, the output consists of the playable
number cards, then the playable action cards, then the playable wild cards,
each group a filter of the hand (hence a subsequence keeping the original
relative order), and the whole output is pairwise nondecreasing in category
rank (no action before a number, no wild before either). -/
theorem output_category_sorted_stable (hand : List Card) (top : Card) :
    melhores_jogadas hand (some top) =
      hand.filter (fun c => playable top c && isNumberCard c)
        ++ hand.filter (fun c => playable top c && isActionCard c)
        ++ hand.filter (fun c => playable top c && isWildCard c)
    ∧ (melhores_jogadas hand (some top)).Pairwise (fun a b => catRank a ≤ catRank b) := by
  refine ⟨melhores_eq_filters hand top, ?_⟩
  rw [melhores_eq_filters]
  have hA : ∀ a ∈ hand.filter (fun c => playable top c && isNumberCard c), catRank a = 0 := by
    intro a ha
    rw [List.mem_filter] at ha
    have h2 := ha.2
    cases a with
    | number col v => rfl
    | action col a => simp [isNumberCard] at h2
    | wild w => simp [isNumberCard] at h2
  have hB : ∀ a ∈ hand.filter (fun c => playable top c && isActionCard c), catRank a = 1 := by
    intro a ha
    rw [List.mem_filter] at ha
    have h2 := ha.2
    cases a with
    | number col v => simp [isActionCard] at h2
    | action col a => rfl
    | wild w => simp [isActionCard] at h2
  have hC : ∀ a ∈ hand.filter (fun c => playable top c && isWildCard c), catRank a = 2 := by
    intro a ha
    rw [List.mem_filter] at ha
    have h2 := ha.2
    cases a with
    | number col v => simp [isWildCard] at h2
    | action col a => simp [isWildCard] at h2
    | wild w => rfl
  refine (List.pairwise_append).mpr ⟨(List.pairwise_append).mpr ⟨?_, ?_, ?_⟩, ?_, ?_⟩
  · exact pairwise_rank_of_forall _ 0 hA
  · exact pairwise_rank_of_forall _ 1 hB
  · intro a ha b hb
    rw [hA a ha, hB b hb]
    omega
  · exact pairwise_rank_of_forall _ 2 hC
  · intro a ha b hb
    rw [hC b hb]
    rcases List.mem_append.mp ha with h1 | h2
    · rw [hA a h1]
      omega
    · rw [hB a h2]
      omega


/-- The six possible results of `UNOCardDetector.detect_color`: one of the
four chromatic colors, `'black'`, or `'unknown'`. -/
inductive ColorLabel
  | chroma (c : Color)
  | black
  | unknown
deriving DecidableEq, Repr

/-- The possible non-`None` results of `UNOCardDetector.detect_card_type`: an
integer, or one of the five special card names. -/
inductive CardSymbol
  | digit (n : Nat)
  | skip
  | reverse
  | draw_two
  | wild
  | wild_draw_four
deriving DecidableEq, Repr

/-- The reconciliation step of `UNOCardDetector.detect_card` (`bot.py` lines
74-84), as a function of the two classifier outputs: a chromatic color with a
digit gives a number card and with one of the three action names an action
card, while any other symbol gives `None`; black gives the matching wild card
for the two wild names and the default wild otherwise; `'unknown'` color
gives `None`. -/
def detect_card (color : ColorLabel) (value : Option CardSymbol) : Option Card :=
  match color with
  | .chroma c =>
    match value with
    | some (.digit n) => some (.number c n)
    | some .skip => some (.action c .skip)
    | some .reverse => some (.action c .reverse)
    | some .draw_two => some (.action c .draw_two)
    | _ => none
  | .black =>
    match value with
    | some .wild => some (.wild .wild)
    | some .wild_draw_four => some (.wild .wild_draw_four)
    | _ => some (.wild .wild)
  | .unknown => none

/-- C5: when the color classifier reports black, the recognizer always
returns a wild card: the matching wild card for the two wild symbols, the
default wild with action `wild` for any other symbol result (including none),
and never an unrecognized result. -/
theorem black_color_always_wild :
    (∀ v : Option CardSymbol, detect_card .black v ≠ none)
    ∧ detect_card .black (some .wild) = some (Card.wild .wild)
    ∧ detect_card .black (some .wild_draw_four) = some (Card.wild .wild_draw_four)
    ∧ ∀ v : Option CardSymbol, v ≠ some CardSymbol.wild → v ≠ some CardSymbol.wild_draw_four →
        detect_card .black v = some (Card.wild .wild) := by
  refine ⟨?_, rfl, rfl, ?_⟩
  · intro v
    rcases v with _ | s
    · simp [detect_card]
    · cases s <;> simp [detect_card]
  · intro v h1 h2
    rcases v with _ | s
    · rfl
    · cases s with
      | wild => exact absurd rfl h1
      | wild_draw_four => exact absurd rfl h2
      | digit n => rfl
      | skip => rfl
      | reverse => rfl
      | draw_two => rfl

theorem black_color_always_wild_witness :
    detect_card .black (some (CardSymbol.digit 3)) = some (Card.wild .wild) :=
  black_color_always_wild.2.2.2 (some (CardSymbol.digit 3)) (by decide) (by decide)

/-- C6: an indeterminate (`'unknown'`) color always yields an unrecognized
result regardless of the symbol, and a chromatic color whose symbol resolves
to a wild token or to nothing also yields an unrecognized result. -/
theorem unknown_color_unrecognized :
    (∀ v : Option CardSymbol, detect_card .unknown v = none)
    ∧ ∀ c : Color, detect_card (.chroma c) (some .wild) = none
        ∧ detect_card (.chroma c) (some .wild_draw_four) = none
        ∧ detect_card (.chroma c) none = none :=
  ⟨fun _ => rfl, fun _ => ⟨rfl, rfl, rfl⟩⟩

/-- The per-color pixel counts computed in `UNOCardDetector.detect_color`
(`cv2.countNonZero` of each color mask), one for each of the five entries of
`self.color_ranges`. -/
structure ColorScores where
  red : Nat
  blue : Nat
  green : Nat
  yellow : Nat
  black : Nat
deriving DecidableEq, Repr

/-- The five keys of `color_scores`, in dict insertion order. -/
inductive MaskKey
  | red
  | blue
  | green
  | yellow
  | black
deriving DecidableEq, Repr

/-- `color_scores[k]`. -/
def maskScore (s : ColorScores) : MaskKey → Nat
  | .red => s.red
  | .blue => s.blue
  | .green => s.green
  | .yellow => s.yellow
  | .black => s.black

/-- The `ColorLabel` a winning mask key stands for. -/
def maskLabel : MaskKey → ColorLabel
  | .red => .chroma .red
  | .blue => .chroma .blue
  | .green => .chroma .green
  | .yellow => .chroma .yellow
  | .black => .black

/-- `max(color_scores, key=color_scores.get)`: Python's `max` scans the keys
in insertion order and keeps the first key attaining the maximal value, so a
later key replaces the current best only when strictly greater. -/
def dominant (s : ColorScores) : MaskKey :=
  [MaskKey.blue, MaskKey.green, MaskKey.yellow, MaskKey.black].foldl
    (fun best k => if maskScore s k > maskScore s best then k else best) MaskKey.red

/-- The decision rule of `UNOCardDetector.detect_color` (`bot.py` lines
41-42): the dominant color if its score exceeds 1000, else `'unknown'`. -/
def detect_color (s : ColorScores) : ColorLabel :=
  if maskScore s (dominant s) > 1000 then maskLabel (dominant s) else .unknown

/-- The maximum of the five scores. -/
def maxScore (s : ColorScores) : Nat :=
  (((s.red.max s.blue).max s.green).max s.yellow).max s.black

lemma dominant_score (s : ColorScores) : maskScore s (dominant s) = maxScore s := by
  simp only [dominant, List.foldl, maxScore]
  split_ifs <;> simp_all [maskScore] <;> omega

lemma maskLabel_ne_unknown (k : MaskKey) : maskLabel k ≠ ColorLabel.unknown := by
  cases k <;> simp [maskLabel]

/-- C7 counterexample: with a maximum score of exactly 1000 pixels (red mask
1000, all others 0) the classifier returns `'unknown'`, not the winning red
label as the claim requires. -/
theorem threshold_boundary_unknown :
    detect_color ⟨1000, 0, 0, 0, 0⟩ = ColorLabel.unknown
    ∧ detect_color ⟨1000, 0, 0, 0, 0⟩ ≠ ColorLabel.chroma .red
    ∧ maxScore ⟨1000, 0, 0, 0, 0⟩ = 1000
    ∧ dominant ⟨1000, 0, 0, 0, 0⟩ = MaskKey.red := by
  refine ⟨by decide, by decide, by decide, by decide⟩

/-- C7 amended: the classifier returns `'unknown'` exactly when the maximum
score is at most 1000 (the code demands strictly more than 1000 pixels, so a
maximum of exactly 1000 yields `'unknown'`); when the maximum exceeds 1000 it
returns the label of the first color attaining the maximum score. -/
theorem detect_color_threshold (s : ColorScores) :
    (detect_color s = ColorLabel.unknown ↔ maxScore s ≤ 1000)
    ∧ (1000 < maxScore s →
        detect_color s = maskLabel (dominant s)
        ∧ maskScore s (dominant s) = maxScore s) := by
  have hd := dominant_score s
  have key : detect_color s
      = if 1000 < maxScore s then maskLabel (dominant s) else ColorLabel.unknown := by
    simp only [detect_color, gt_iff_lt, hd]
  constructor
  · rw [key]
    by_cases h : 1000 < maxScore s
    · rw [if_pos h]
      constructor
      · intro hu
        exact absurd hu (maskLabel_ne_unknown _)
      · intro hle
        omega
    · rw [if_neg h]
      constructor
      · intro _
        omega
      · intro _
        rfl
  · intro h
    rw [key, if_pos h]
    exact ⟨rfl, hd⟩

theorem detect_color_threshold_witness :
    detect_color ⟨1001, 0, 0, 0, 0⟩ = maskLabel (dominant ⟨1001, 0, 0, 0, 0⟩)
    ∧ maskScore ⟨1001, 0, 0, 0, 0⟩ (dominant ⟨1001, 0, 0, 0, 0⟩)
        = maxScore ⟨1001, 0, 0, 0, 0⟩ :=
  (detect_color_threshold ⟨1001, 0, 0, 0, 0⟩).2 (by decide)

/-- The ten superscript digits, carried as representatives of the characters
of Unicode numeric type Digit that are not of type Decimal. Modelled from
Python semantics: `str.isdigit` accepts every Digit-type character (such as
these superscripts), while `int()` accepts only Decimal-type digits and
raises `ValueError` on the rest. -/
def superscriptDigits : List Char :=
  ['⁰', '¹', '²', '³', '⁴', '⁵', '⁶', '⁷', '⁸', '⁹']

/-- Python `c.isdigit()` for one character: ASCII decimal digits plus the
modelled Digit-type characters. -/
def pyIsDigitChar (c : Char) : Bool :=
  c.isDigit || superscriptDigits.contains c

/-- Python `s.isdigit()`: nonempty and every character a digit. -/
def pyIsdigit (cs : List Char) : Bool :=
  !cs.isEmpty && cs.all pyIsDigitChar

/-- Decimal value of an ASCII digit string. -/
def natFromDigits (cs : List Char) : Nat :=
  cs.foldl (fun n c => 10 * n + (c.toNat - 48)) 0

/-- Python `int(s)` for the strings that reach it in `bot.py` (always
nonempty and all-`isdigit`, by the guards before each call): the decimal
value when every character is an ASCII decimal digit, a raised `ValueError`
otherwise (superscript digits pass `isdigit` but are rejected by `int`). -/
def pyInt (cs : List Char) : Except Unit Nat :=
  if !cs.isEmpty && cs.all Char.isDigit then .ok (natFromDigits cs) else .error ()

/-- Helper for Python `str.split()`: accumulates the current token, closing
it at each whitespace run. -/
def splitWsAux : List Char → List Char → List (List Char)
  | [], acc => if acc.isEmpty then [] else [acc.reverse]
  | c :: cs, acc =>
    if c.isWhitespace then
      if acc.isEmpty then splitWsAux cs [] else acc.reverse :: splitWsAux cs []
    else splitWsAux cs (c :: acc)

/-- Python `str.split()` with no argument: split on whitespace runs,
producing no empty tokens. -/
def splitWs (cs : List Char) : List (List Char) :=
  splitWsAux cs []

/-- The color words accepted by `parse_manual_input`. -/
def colorOfToken (t : List Char) : Option Color :=
  if t = "red".toList then some .red
  else if t = "blue".toList then some .blue
  else if t = "green".toList then some .green
  else if t = "yellow".toList then some .yellow
  else none

/-- The action words accepted by `parse_manual_input`. -/
def actionOfToken (t : List Char) : Option ActionKind :=
  if t = "skip".toList then some .skip
  else if t = "reverse".toList then some .reverse
  else if t = "draw_two".toList then some .draw_two
  else none

/-- `UNOGame.parse_manual_input` (`bot.py` lines 251-271) as a function of
the input text. `Except.error` is a raised `ValueError`; `.ok none` is the
`None` ("invalid") return; `.ok (some c)` is a parsed card. The optional
hand-append side effect appends exactly the returned card and never changes
the return value, so it is not part of the embedding. The action-word test is
duplicated inside the digit branch because Python's short-circuit `and`
evaluates `int(value)` inside the two-sided condition; that duplicate branch
is unreachable since an all-digit token never equals an action word. -/
def parse_manual_input (text : String) : Except Unit (Option Card) :=
  match splitWs (text.toList.map Char.toLower) with
  | [color, value] =>
    match colorOfToken color with
    | some col =>
      if pyIsdigit value then
        match pyInt value with
        | .error e => .error e
        | .ok n =>
          if n ≤ 9 then .ok (some (Card.number col n))
          else
            match actionOfToken value with
            | some a => .ok (some (Card.action col a))
            | none => .ok none
      else
        match actionOfToken value with
        | some a => .ok (some (Card.action col a))
        | none => .ok none
    | none => .ok none
  | [w] =>
    if w = "wild".toList then .ok (some (Card.wild .wild))
    else if w = "wild_draw_four".toList then .ok (some (Card.wild .wild_draw_four))
    else .ok none
  | _ => .ok none

/-- C8: the parser is claimed to return a card or invalid for every input and
never raise, but on "red ²" the superscript two passes `str.isdigit` while
`int()` raises `ValueError`, so the call raises (uncaught by any handler in
`bot.py`); ordinary malformed inputs are returned as invalid as claimed. -/
theorem parse_superscript_raises :
    parse_manual_input "red ²" = Except.error ()
    ∧ parse_manual_input "red 5" = Except.ok (some (Card.number .red 5))
    ∧ parse_manual_input "blue skip" = Except.ok (some (Card.action .blue .skip))
    ∧ parse_manual_input "wild_draw_four" = Except.ok (some (Card.wild .wild_draw_four))
    ∧ parse_manual_input "purple 5" = Except.ok none
    ∧ parse_manual_input "red 10" = Except.ok none
    ∧ parse_manual_input "" = Except.ok none :=
  ⟨rfl, rfl, rfl, rfl, rfl, rfl, rfl⟩

/-- Outcomes of `UNOGame.remove_card_from_hand`: `cancelled` is the
"Remoção cancelada" branch for choice 0, `removedMsg` a successful `pop`,
`outOfRange` the "Número inválido" branch. -/
inductive RemoveMsg
  | cancelled
  | removedMsg (c : Card)
  | outOfRange
deriving DecidableEq, Repr

/-- `UNOGame.remove_card_from_hand` (`bot.py` lines 173-184) as a function of
the hand and the already-parsed integer choice, returning the printed outcome
and the resulting hand: 0 cancels; a choice in `[1, len(hand)]` pops the card
at position `choice-1`; any other choice is rejected; only the pop branch
mutates the hand. -/
def remove_card_from_hand (hand : List Card) (choice : Int) : RemoveMsg × List Card :=
  if choice = 0 then (.cancelled, hand)
  else if h : 1 ≤ choice ∧ choice ≤ (hand.length : Int) then
    (.removedMsg (hand.get ⟨(choice - 1).toNat, by omega⟩),
      hand.eraseIdx (choice - 1).toNat)
  else (.outOfRange, hand)

/-- C9 counterexample: a removal request with index 0 on a nonempty hand is
treated as a cancellation, not as an OutOfRange failure. -/
theorem remove_zero_cancels :
    remove_card_from_hand [Card.wild .wild, Card.number .red 5] 0
      = (RemoveMsg.cancelled, [Card.wild .wild, Card.number .red 5])
    ∧ RemoveMsg.cancelled ≠ RemoveMsg.outOfRange :=
  ⟨rfl, by decide⟩

/-- C9 amended: index 0 cancels the removal and leaves the hand unchanged
(the 0 sentinel is a cancellation, not an OutOfRange failure); every other
index outside [1, length] — in particular length+1 and negative indices — is
rejected as out of range with the hand unchanged; a valid one-based index i+1
removes and returns the card at zero-based position i, the remaining cards
keeping their original relative order. -/
theorem remove_card_spec (hand : List Card) :
    remove_card_from_hand hand 0 = (RemoveMsg.cancelled, hand)
    ∧ (∀ choice : Int, choice ≠ 0 → (choice < 1 ∨ (hand.length : Int) < choice) →
        remove_card_from_hand hand choice = (RemoveMsg.outOfRange, hand))
    ∧ ∀ i : Nat, ∀ hi : i < hand.length,
        remove_card_from_hand hand ((i : Int) + 1)
          = (RemoveMsg.removedMsg (hand.get ⟨i, hi⟩), hand.take i ++ hand.drop (i + 1)) := by
  refine ⟨rfl, ?_, ?_⟩
  · intro choice h0 hrange
    rw [remove_card_from_hand, if_neg h0, dif_neg (by rcases hrange with h1 | h1 <;> omega)]
  · intro i hi
    rw [remove_card_from_hand, if_neg (by omega), dif_pos (by omega)]
    have hidx : ((i : Int) + 1 - 1).toNat = i := by omega
    simp only [hidx]
    rw [List.eraseIdx_eq_take_drop_succ]

theorem remove_card_spec_witness :
    remove_card_from_hand [Card.number .red 1, Card.number .blue 2, Card.number .green 3] 4
      = (RemoveMsg.outOfRange, [Card.number .red 1, Card.number .blue 2, Card.number .green 3])
    ∧ remove_card_from_hand [Card.number .red 1, Card.number .blue 2, Card.number .green 3] 1
      = (RemoveMsg.removedMsg (Card.number .red 1), [Card.number .blue 2, Card.number .green 3]) :=
  ⟨(remove_card_spec _).2.1 4 (by decide) (Or.inr (by decide)),
   (remove_card_spec _).2.2 0 (by decide)⟩

/-- Python `str.strip()`: whitespace removed from both ends. -/
def pyStrip (cs : List Char) : List Char :=
  ((cs.dropWhile Char.isWhitespace).reverse.dropWhile Char.isWhitespace).reverse

/-- `self.special_cards`, in dict insertion order (`bot.py` lines 18-24). -/
def special_cards : List (List Char × CardSymbol) :=
  [(['S'], .skip), (['R'], .reverse), (['+', '2'], .draw_two),
    (['W'], .wild), (['+', '4'], .wild_draw_four)]

/-- Whether the second list is a prefix of the first. -/
def startsWithChars : List Char → List Char → Bool
  | _, [] => true
  | [], _ :: _ => false
  | a :: as, b :: bs => a == b && startsWithChars as bs

/-- Python `needle in hay` substring membership. -/
def strContains : List Char → List Char → Bool
  | [], needle => needle.isEmpty
  | a :: rest, needle => startsWithChars (a :: rest) needle || strContains rest needle

/-- The special-symbol scan loop of `detect_card_type`: the first entry of
`special_cards` whose token occurs in the text. -/
def findSpecial (text : List Char) : List (List Char × CardSymbol) → Option CardSymbol
  | [] => none
  | (sym, name) :: rest =>
    if strContains text sym then some name else findSpecial text rest

/-- `UNOCardDetector.detect_card_type` (`bot.py` lines 51-65) as a function
of the OCR output text: strip whitespace, scan for the special tokens in dict
order, otherwise keep the `isdigit` characters of the text and accept their
integer value when it is at most 9. `int` raises on Digit-type characters
that are not decimal, as in `pyInt`. -/
def detect_card_type (text : List Char) : Except Unit (Option CardSymbol) :=
  let t := pyStrip text
  match findSpecial t special_cards with
  | some name => .ok (some name)
  | none =>
    let clean := t.filter pyIsDigitChar
    if clean.isEmpty then .ok none
    else
      match pyInt clean with
      | .error e => .error e
      | .ok n => if n ≤ 9 then .ok (some (.digit n)) else .ok none

lemma dropWhile_of_all_false (p : Char → Bool) (cs : List Char)
    (h : ∀ c ∈ cs, p c = false) : cs.dropWhile p = cs := by
  cases cs with
  | nil => rfl
  | cons a rest =>
    rw [List.dropWhile_cons, if_neg (by simp [h a (by simp)])]

lemma pyStrip_id (cs : List Char) (h : ∀ c ∈ cs, c.isWhitespace = false) :
    pyStrip cs = cs := by
  unfold pyStrip
  rw [dropWhile_of_all_false _ _ h,
    dropWhile_of_all_false _ _ (fun c hc => h c (List.mem_reverse.mp hc)),
    List.reverse_reverse]

lemma startsWithChars_head (a : Char) (as : List Char) (b : Char) (bs : List Char)
    (h : startsWithChars (a :: as) (b :: bs) = true) : b = a := by
  simp only [startsWithChars, Bool.and_eq_true, beq_iff_eq] at h
  exact h.1.symm

lemma strContains_mem (hay : List Char) (b : Char) (bs : List Char)
    (h : strContains hay (b :: bs) = true) : b ∈ hay := by
  induction hay with
  | nil => simp [strContains] at h
  | cons a rest ih =>
    simp only [strContains, Bool.or_eq_true] at h
    rcases h with h | h
    · rw [startsWithChars_head a rest b bs h]
      exact List.mem_cons_self a rest
    · exact List.mem_cons_of_mem a (ih h)

lemma strContains_false (hay : List Char) (b : Char) (bs : List Char)
    (h : b ∉ hay) : strContains hay (b :: bs) = false := by
  cases hc : strContains hay (b :: bs)
  · rfl
  · exact absurd (strContains_mem hay b bs hc) h

lemma foldl_zeros (k : Nat) :
    List.foldl (fun n c => 10 * n + (c.toNat - 48)) 0 (List.replicate k '0') = 0 := by
  induction k with
  | zero => rfl
  | succ k ih =>
    rw [List.replicate_succ, List.foldl_cons]
    exact ih

lemma natFromDigits_zeros (k : Nat) (d : Char) :
    natFromDigits (List.replicate k '0' ++ [d]) = d.toNat - 48 := by
  rw [natFromDigits, List.foldl_append, foldl_zeros]
  simp [List.foldl_cons]

/-- An all-stripped, token-free digit text of the form `0...0d` is resolved
through the digit branch of `detect_card_type`. -/
lemma detect_card_type_zeros_digit (k : Nat) (d : Char)
    (h1 : d.isWhitespace = false) (h2 : d.isDigit = true)
    (h3 : d ≠ 'S') (h4 : d ≠ 'R') (h5 : d ≠ '+') (h6 : d ≠ 'W') :
    detect_card_type (List.replicate k '0' ++ [d])
      = if d.toNat - 48 ≤ 9 then Except.ok (some (CardSymbol.digit (d.toNat - 48)))
        else Except.ok none := by
  have hmem : ∀ c ∈ List.replicate k '0' ++ [d], c = '0' ∨ c = d := by
    intro c hc
    rcases List.mem_append.mp hc with h | h
    · exact Or.inl (List.eq_of_mem_replicate h)
    · simp only [List.mem_singleton] at h
      exact Or.inr h
  have hws : ∀ c ∈ List.replicate k '0' ++ [d], c.isWhitespace = false := by
    intro c hc
    rcases hmem c hc with rfl | rfl
    · decide
    · exact h1
  have hS : strContains (List.replicate k '0' ++ [d]) ['S'] = false :=
    strContains_false _ _ _ (by
      intro hm
      rcases hmem _ hm with h | h
      · exact absurd h (by decide)
      · exact h3 h.symm)
  have hR : strContains (List.replicate k '0' ++ [d]) ['R'] = false :=
    strContains_false _ _ _ (by
      intro hm
      rcases hmem _ hm with h | h
      · exact absurd h (by decide)
      · exact h4 h.symm)
  have hP2 : strContains (List.replicate k '0' ++ [d]) ['+', '2'] = false :=
    strContains_false _ _ _ (by
      intro hm
      rcases hmem _ hm with h | h
      · exact absurd h (by decide)
      · exact h5 h.symm)
  have hW : strContains (List.replicate k '0' ++ [d]) ['W'] = false :=
    strContains_false _ _ _ (by
      intro hm
      rcases hmem _ hm with h | h
      · exact absurd h (by decide)
      · exact h6 h.symm)
  have hP4 : strContains (List.replicate k '0' ++ [d]) ['+', '4'] = false :=
    strContains_false _ _ _ (by
      intro hm
      rcases hmem _ hm with h | h
      · exact absurd h (by decide)
      · exact h5 h.symm)
  have hfil : (List.replicate k '0' ++ [d]).filter pyIsDigitChar
      = List.replicate k '0' ++ [d] := by
    rw [List.filter_eq_self]
    intro c hc
    rcases hmem c hc with rfl | rfl
    · decide
    · simp [pyIsDigitChar, h2]
  have hall : (List.replicate k '0' ++ [d]).all Char.isDigit = true := by
    rw [List.all_eq_true]
    intro c hc
    rcases hmem c hc with rfl | rfl
    · decide
    · exact h2
  have hne : (List.replicate k '0' ++ [d]).isEmpty = false := by
    simp
  rw [detect_card_type]
  rw [pyStrip_id _ hws]
  simp only [special_cards, findSpecial, hS, hR, hP2, hW, hP4, Bool.false_eq_true,
    if_false]
  simp only [hfil, hne, Bool.false_eq_true, if_false, pyInt, hall, Bool.not_false,
    Bool.and_self, if_true, natFromDigits_zeros]

/-- C10: when no action token occurs in the recognized text, the digit branch
accepts any digit string whose value is at most 9, not only single
characters: a text of a digit preceded by any number of leading zeros yields
that digit (in particular "07" gives 7 and "0009" gives 9), while "12"
(value above 9) and the empty text yield none. -/
theorem digit_branch_multichar (k n : Nat) (hn : n ≤ 9) :
    detect_card_type (List.replicate k '0' ++ [Nat.digitChar n])
      = Except.ok (some (CardSymbol.digit n))
    ∧ detect_card_type "07".toList = Except.ok (some (CardSymbol.digit 7))
    ∧ detect_card_type "0009".toList = Except.ok (some (CardSymbol.digit 9))
    ∧ detect_card_type "12".toList = Except.ok none
    ∧ detect_card_type "".toList = Except.ok none := by
  refine ⟨?_, rfl, rfl, rfl, rfl⟩
  interval_cases n <;>
    rw [detect_card_type_zeros_digit k _ (by decide) (by decide) (by decide) (by decide)
      (by decide) (by decide)] <;> rfl

theorem digit_branch_multichar_witness :
    detect_card_type (List.replicate 2 '0' ++ [Nat.digitChar 7])
      = Except.ok (some (CardSymbol.digit 7)) :=
  (digit_branch_multichar 2 7 (by decide)).1
